import Mathlib

/-!
Shallow embedding of the react-soda store engine (src/index.ts).

The state values a store holds are JavaScript values.  We model them as
primitives plus references into an append-only heap of objects; `Object.is`
is equality of that representation (reference equality on objects, value
equality on primitives), `Object.getPrototypeOf(obj) === Object.prototype`
holds exactly for the `plain` heap objects (arrays have `Array.prototype`,
functions are `typeof "function"`, and `exotic` stands for class instances
and `Object.create(null)` results, whose prototype is not `Object.prototype`).
-/

namespace ReactSoda

/-- JavaScript primitive values (numbers restricted to integers: nothing in
the store engine depends on floating point). -/
inductive Prim where
  | null
  | undef
  | bool (b : Bool)
  | num (n : Int)
  | str (s : String)
deriving DecidableEq, Repr

/-- A JavaScript value: a primitive, or a reference to a heap object. -/
inductive JSValue where
  | prim (p : Prim)
  | ref (i : Nat)
deriving DecidableEq, Repr

/-- A heap object: a plain record (prototype `Object.prototype`), an array,
a function (behaviour looked up by `fid` in a `FunTable`), or an exotic
object (class instance, null-prototype object, ...). -/
inductive HeapObj where
  | plain (fields : List (String × JSValue))
  | array (elems : List JSValue)
  | func (fid : Nat)
  | exotic (tag : Nat)
deriving DecidableEq, Repr

/-- Whether a heap object is a plain record (prototype exactly
`Object.prototype`). -/
def HeapObj.isPlainRec : HeapObj → Bool
  | .plain _ => true
  | _ => false

/-- The object heap; a reference `JSValue.ref i` points at index `i`.
Allocation appends, so existing references stay valid. -/
abbrev Heap := List HeapObj

/-- `Object.is` (on our value model: reference equality for objects, value
equality for primitives; `NaN`/`-0` do not arise with integer numbers). -/
def objectIs (a b : JSValue) : Bool := a == b

/-- src/index.ts `isPlainObject`:
`typeof obj === "object" && obj !== null && Object.getPrototypeOf(obj) === Object.prototype`. -/
def isPlainObject (h : Heap) (v : JSValue) : Bool :=
  match v with
  | .ref i =>
    match h[i]? with
    | some (.plain _) => true
    | _ => false
  | .prim _ => false

/-- `typeof v === "function"`. -/
def isFunction (h : Heap) (v : JSValue) : Bool :=
  match v with
  | .ref i =>
    match h[i]? with
    | some (.func _) => true
    | _ => false
  | .prim _ => false

/-- The own enumerable fields of a value (empty for non-plain values; only
used on values known to be plain records). -/
def fieldsAt (h : Heap) (v : JSValue) : List (String × JSValue) :=
  match v with
  | .ref i =>
    match h[i]? with
    | some (.plain fs) => fs
    | _ => []
  | .prim _ => []

/-- Setting one property on a record: overwrite in place if the key exists
(keeping its position, as JS property assignment does), else append. -/
def setField (fs : List (String × JSValue)) (k : String) (v : JSValue) :
    List (String × JSValue) :=
  if fs.any (fun p => p.1 == k) then
    fs.map (fun p => if p.1 == k then (k, v) else p)
  else fs ++ [(k, v)]

/-- `Object.assign(target, source)` on field lists: assign every property of
`src` onto `base`, in order. -/
def assignFields (base src : List (String × JSValue)) : List (String × JSValue) :=
  src.foldl (fun acc p => setField acc p.1 p.2) base

/-- Property lookup on a field list (first occurrence). -/
def lookupField (fs : List (String × JSValue)) (k : String) : Option JSValue :=
  (fs.find? (fun p => p.1 == k)).map (fun p => p.2)

/-- Behaviour of function objects: `fid ↦ (heap, argument) ↦ (result, heap)`.
A call may allocate (or, as arbitrary user code, otherwise change the heap). -/
abbrev FunTable := Nat → Heap → JSValue → JSValue × Heap

/-- Calling a value as a function (only ever done after an `isFunction` test). -/
def callFun (ft : FunTable) (h : Heap) (f arg : JSValue) : JSValue × Heap :=
  match f with
  | .ref i =>
    match h[i]? with
    | some (.func fid) => ft fid h arg
    | _ => (.prim .undef, h)
  | .prim _ => (.prim .undef, h)

/-- Listeners registered on a store.  `user` listeners are external
observers; `changedFlag` and `writeThrough` are the two internal listeners
`createPersistentStore` subscribes (the one-shot changed-flag guard at
line 314 and the per-commit write-through at lines 302/318). -/
inductive ListenerKind where
  | user (uid : Nat)
  | changedFlag
  | writeThrough
deriving DecidableEq, Repr

/-- The core store of `createStore`: the `nowState` slot and the listener
set (a JS `Set`, iterated in insertion order, so modelled as a
duplicate-free list). -/
structure Store where
  nowState : JSValue
  listeners : List ListenerKind
deriving DecidableEq, Repr

/-- Result of one `setState` call: the heap afterwards, the store
afterwards, and the snapshot of listeners that got notified (each with
arguments `(nowState, prevState)`); empty on the two no-op early returns. -/
structure CommitResult where
  heap : Heap
  store : Store
  notified : List ListenerKind
deriving DecidableEq, Repr

/-- Line 113: `typeof newState === "function" ? newState(prevState) : newState`. -/
def candidateOf (ft : FunTable) (h : Heap) (s : Store) (newState : JSValue) :
    JSValue × Heap :=
  if isFunction h newState then callFun ft h newState s.nowState else (newState, h)

/-- Line 116: `Object.assign({}, prevState, nextState)` — allocate a fresh
plain object whose fields are `prevFields` assigned over by `nextFields`. -/
def shallowMergeAlloc (h : Heap) (prevFields nextFields : List (String × JSValue)) :
    JSValue × Heap :=
  (.ref h.length, h ++ [.plain (assignFields (assignFields [] prevFields) nextFields)])

/-- src/index.ts `setState` (lines 110–121) inside `createStore`:

    if (Object.is(nowState, newState)) return
    const prevState = nowState
    const nextState = typeof newState === "function" ? newState(prevState) : newState
    if (Object.is(prevState, nextState)) return
    if (isPlainObject(prevState) && isPlainObject(nextState) && !replace) {
        nowState = Object.assign({}, prevState, nextState)
    } else {
        nowState = nextState
    }
    listeners.forEach(listener => listener(nowState, prevState))
-/
def setState (ft : FunTable) (h : Heap) (s : Store) (newState : JSValue)
    (replace : Bool) : CommitResult :=
  if objectIs s.nowState newState then ⟨h, s, []⟩
  else
    let c := candidateOf ft h s newState
    if objectIs s.nowState c.1 then ⟨c.2, s, []⟩
    else if isPlainObject c.2 s.nowState && isPlainObject c.2 c.1 && !replace then
      let m := shallowMergeAlloc c.2 (fieldsAt c.2 s.nowState) (fieldsAt c.2 c.1)
      ⟨m.2, { s with nowState := m.1 }, s.listeners⟩
    else
      ⟨c.2, { s with nowState := c.1 }, s.listeners⟩

/-- `listeners.add(listener)` (`Set` semantics: adding a present element is
a no-op, otherwise it is appended in insertion order). -/
def subscribe (s : Store) (l : ListenerKind) : Store :=
  if l ∈ s.listeners then s else { s with nowState := s.nowState, listeners := s.listeners ++ [l] }

/-- `listeners.delete(listener)` — the body of the `unsubscribe` closure. -/
def unsubscribe (s : Store) (l : ListenerKind) : Store :=
  { s with listeners := s.listeners.filter (fun x => x ≠ l) }

/-- `typeof init === "function" ? init() : init` (line 101; the thunk takes
no argument, modelled by passing `undefined`). -/
def resolveInit (ft : FunTable) (h : Heap) (init : JSValue) : JSValue × Heap :=
  if isFunction h init then callFun ft h init (.prim .undef) else (init, h)

/-- `createStore` (line 100): resolve the initial state, empty listener set. -/
def createStore (ft : FunTable) (h : Heap) (init : JSValue) : Store × Heap :=
  let r := resolveInit ft h init
  ({ nowState := r.1, listeners := [] }, r.2)

/-!
## Persistent store (`createPersistentStore`, src/index.ts lines 238–320)

The storage backend's key-value contents are a `List (String × String)`;
`setItem`/`removeItem` act on them.  `getItem`'s observable behaviour at
construction is one of: synchronously return a value-or-null, synchronously
throw, or return a pending promise whose later settlement is fed to
`resolveLoad` (the `.then`/`.catch` continuations of lines 264–282).
Construction itself runs synchronously; code outside any try/catch that
throws makes `createPersistentStore` return `none` (the constructor
crashes).  `console.error` calls are counted in `errors`.
-/

/-- A backend `setItem`/`removeItem`/`getItem` call, for the operation log. -/
inductive StorageOp where
  | get (key : String)
  | set (key val : String)
  | remove (key : String)
deriving DecidableEq, Repr

/-- `setItem` on backend contents: overwrite or insert. -/
def setKV (m : List (String × String)) (k v : String) : List (String × String) :=
  if m.any (fun p => p.1 == k) then
    m.map (fun p => if p.1 == k then (k, v) else p)
  else m ++ [(k, v)]

/-- `removeItem` on backend contents. -/
def removeKV (m : List (String × String)) (k : String) : List (String × String) :=
  m.filter (fun p => p.1 ≠ k)

/-- `getItem`-style lookup on backend contents. -/
def lookupKV (m : List (String × String)) (k : String) : Option String :=
  (m.find? (fun p => p.1 == k)).map (fun p => p.2)

/-- What `storage.getItem(storageKey)` does at construction time (line 261). -/
inductive GetBehavior where
  | sync (v : Option String)
  | syncThrow
  | async
deriving DecidableEq, Repr

/-- How the pending `getItem` promise of an asynchronous backend settles. -/
inductive Settle where
  | resolved (v : Option String)
  | rejected
deriving DecidableEq, Repr

/-- Configuration of a persistent store: updater/thunk behaviour, the
`stringify`/`parse` pair, the store's `name`, and whether a given
`setItem(key, value)` call throws synchronously.  `parse` returns `none`
when it throws; it may allocate into the heap. -/
structure PCfg where
  ft : FunTable
  stringify : Heap → JSValue → String
  parse : String → Heap → Option (JSValue × Heap)
  name : String
  setItemThrows : String → String → Bool

/-- Line 242: `` const storageKey = `react-soda-${name}` ``. -/
def storageKeyOf (cfg : PCfg) : String := "react-soda-" ++ cfg.name

/-- The whole observable state of a persistent store: the heap, the core
store fields, the one-shot `changed` flag, the backend contents, the log of
backend write operations, the `console.error` count, and the arguments of
every `user` listener invocation. -/
structure PState where
  heap : Heap
  nowState : JSValue
  listeners : List ListenerKind
  changed : Bool
  backend : List (String × String)
  ops : List StorageOp
  errors : Nat
  notifs : List (ListenerKind × JSValue × JSValue)
deriving DecidableEq, Repr

/-- Run the notified listeners of one commit in order, performing their
effects.  `user` listeners just record their invocation; `changedFlag`
(line 314) sets the flag and unsubscribes itself; `writeThrough`
(lines 302/318) calls `storage.setItem(storageKey, stringify(state))` —
if that `setItem` throws synchronously, the exception aborts the remaining
iteration and propagates out of `setState` (second component `true`). -/
def runListeners (cfg : PCfg) (ps : PState) (pending : List ListenerKind)
    (st prev : JSValue) : PState × Bool :=
  match pending with
  | [] => (ps, false)
  | .user uid :: rest =>
    runListeners cfg { ps with notifs := ps.notifs ++ [(.user uid, st, prev)] } rest st prev
  | .changedFlag :: rest =>
    runListeners cfg
      { ps with changed := true,
                listeners := ps.listeners.filter (fun x => x ≠ .changedFlag) } rest st prev
  | .writeThrough :: rest =>
    let v := cfg.stringify ps.heap st
    if cfg.setItemThrows (storageKeyOf cfg) v then (ps, true)
    else
      runListeners cfg
        { ps with backend := setKV ps.backend (storageKeyOf cfg) v,
                  ops := ps.ops ++ [.set (storageKeyOf cfg) v] } rest st prev

/-- `setState` on a persistent store: the core commit of lines 110–121
followed by the effects of the notified listeners.  The second component is
`true` when the call throws (a synchronously throwing write-through). -/
def psSetState (cfg : PCfg) (ps : PState) (newState : JSValue) (replace : Bool) :
    PState × Bool :=
  let r := setState cfg.ft ps.heap { nowState := ps.nowState, listeners := ps.listeners }
      newState replace
  runListeners cfg { ps with heap := r.heap, nowState := r.store.nowState }
    r.notified r.store.nowState ps.nowState

/-- Lines 306–319: the fall-through path of `createPersistentStore` — build
the store from `init`, write the initial state through once
(line 313, outside any try/catch: a throwing `setItem` crashes
construction), then subscribe the one-shot changed-flag listener and the
per-commit write-through. -/
def buildFromInit (cfg : PCfg) (backend0 : List (String × String))
    (ops0 : List StorageOp) (errs : Nat) (h : Heap) (init : JSValue) : Option PState :=
  let c := createStore cfg.ft h init
  let v := cfg.stringify c.2 c.1.nowState
  if cfg.setItemThrows (storageKeyOf cfg) v then none
  else
    some { heap := c.2
           nowState := c.1.nowState
           listeners := [.changedFlag, .writeThrough]
           changed := false
           backend := setKV backend0 (storageKeyOf cfg) v
           ops := ops0 ++ [.set (storageKeyOf cfg) v]
           errors := errs
           notifs := [] }

/-- `createPersistentStore` (lines 238–320), up to the point where it
returns the store.  `none` means the constructor itself threw:
`storage.getItem` at line 261 and the `storage.setItem` calls at lines
301/313 run outside any try/catch.  With an asynchronous backend the
pending promise's settlement is processed later by `resolveLoad`. -/
def psCreate (cfg : PCfg) (getB : GetBehavior) (backend0 : List (String × String))
    (h : Heap) (init : JSValue) : Option PState :=
  match getB with
  | .syncThrow => none
  | .async => buildFromInit cfg backend0 [.get (storageKeyOf cfg)] 0 h init
  | .sync none => buildFromInit cfg backend0 [.get (storageKeyOf cfg)] 0 h init
  | .sync (some str) =>
    match cfg.parse str h with
    | none =>
      buildFromInit cfg (removeKV backend0 (storageKeyOf cfg))
        [.get (storageKeyOf cfg), .remove (storageKeyOf cfg)] 1 h init
    | some (data, h1) =>
      let c := createStore cfg.ft h1 data
      let v := cfg.stringify c.2 c.1.nowState
      if cfg.setItemThrows (storageKeyOf cfg) v then none
      else
        some { heap := c.2
               nowState := c.1.nowState
               listeners := [.writeThrough]
               changed := false
               backend := setKV backend0 (storageKeyOf cfg) v
               ops := [.get (storageKeyOf cfg), .set (storageKeyOf cfg) v]
               errors := 0
               notifs := [] }

/-- The continuations attached to an asynchronous backend's pending
`getItem` promise (lines 264–282):

    .then(str => {
        if (changed || str === null) return
        try { data = parse(str); success = true }
        catch (error) { storage.removeItem(storageKey); console.error(error) }
        if (success) useStore.setState(data)
    })
    .catch(error => { console.error(error) })

An exception escaping the `.then` callback (e.g. a throwing write-through
inside `setState`) only rejects the already-settled promise chain, so the
`thrown` flag of the inner `setState` is dropped. -/
def resolveLoad (cfg : PCfg) (ps : PState) (s : Settle) : PState :=
  match s with
  | .rejected => { ps with errors := ps.errors + 1 }
  | .resolved v =>
    if ps.changed then ps
    else
      match v with
      | none => ps
      | some str =>
        match cfg.parse str ps.heap with
        | none =>
          { ps with backend := removeKV ps.backend (storageKeyOf cfg),
                    ops := ps.ops ++ [.remove (storageKeyOf cfg)],
                    errors := ps.errors + 1 }
        | some (data, h1) => (psSetState cfg { ps with heap := h1 } data false).1

/-!
## Concrete instances used by the witnesses and counterexamples
-/

/-- A function table whose functions all return `undefined` without touching
the heap. -/
def ftConst : FunTable := fun _ h _ => (.prim .undef, h)

/-- A function table whose functions return the function object at heap
index 0 — an updater that returns itself. -/
def ftSelfReturn : FunTable := fun _ h _ => (.ref 0, h)

/-- Heap for the replace example: object 0 is `{a:1}`, object 1 is `{b:2}`. -/
def heapReplace : Heap := [.plain [("a", .prim (.num 1))], .plain [("b", .prim (.num 2))]]

/-- Heap for the merge example: object 0 is `{a:1,b:2}`, object 1 is `{b:3}`. -/
def heapMerge : Heap :=
  [.plain [("a", .prim (.num 1)), ("b", .prim (.num 2))], .plain [("b", .prim (.num 3))]]

/-- Heap for the atomic example: object 0 is `{x:1}`, object 1 is `[]`. -/
def heapArr : Heap := [.plain [("x", .prim (.num 1))], .array []]

/-- Heap holding a single function object. -/
def heapFun : Heap := [.func 0]

/-- Persistent-store configuration whose deserializer always throws and
whose backend writes never throw. -/
def cfgCorrupt : PCfg :=
  { ft := ftConst
    stringify := fun _ _ => "INIT"
    parse := fun _ _ => none
    name := "n"
    setItemThrows := fun _ _ => false }

/-- Persistent-store configuration whose deserializer parses the string
`"snap"` into a freshly allocated record `{a:1}`. -/
def cfgSnap : PCfg :=
  { ft := ftConst
    stringify := fun _ _ => "x"
    parse := fun s h =>
      if s = "snap" then some (.ref h.length, h ++ [.plain [("a", .prim (.num 1))]]) else none
    name := "n"
    setItemThrows := fun _ _ => false }

/-- Persistent-store configuration whose deserializer parses the string
`"42"` into the atomic value `42`. -/
def cfgAtomicSnap : PCfg :=
  { ft := ftConst
    stringify := fun _ st => match st with | .prim (.num n) => toString n | _ => "o"
    parse := fun s h => if s = "42" then some (.prim (.num 42), h) else none
    name := "n"
    setItemThrows := fun _ _ => false }

/-- The store `psCreate cfgSnap .async [] [.plain [("b", .prim (.num 2))]] (.ref 0)`
returns: seeded with the record `{b:2}`, changed flag disarmed, initial
write-through done. -/
def psAsync0 : PState :=
  { heap := [.plain [("b", .prim (.num 2))]]
    nowState := .ref 0
    listeners := [.changedFlag, .writeThrough]
    changed := false
    backend := [("react-soda-n", "x")]
    ops := [.get "react-soda-n", .set "react-soda-n" "x"]
    errors := 0
    notifs := [] }

/-- Persistent-store configuration whose backend `setItem` throws exactly
when asked to write the serialized form of the state `1` (so construction,
which writes `"0"`, succeeds, but the first write-through after
`setState(1)` throws). -/
def cfgThrowOnOne : PCfg :=
  { ft := ftConst
    stringify := fun _ st => match st with | .prim (.num n) => toString n | _ => "o"
    parse := fun _ _ => none
    name := "n"
    setItemThrows := fun _ v => v == "1" }

/-! ## Lemmas on field assignment (`Object.assign` on records) -/

theorem lookupField_nil (k : String) : lookupField [] k = none := rfl

theorem lookupField_cons (p : String × JSValue) (t : List (String × JSValue))
    (k : String) :
    lookupField (p :: t) k = if p.1 = k then some p.2 else lookupField t k := by
  unfold lookupField
  rw [List.find?_cons]
  by_cases h : p.1 = k
  · have hb : (p.1 == k) = true := by simp [h]
    rw [hb]
    simp [h]
  · have hb : (p.1 == k) = false := by simp [h]
    rw [hb]
    simp [h]

theorem lookupField_append (a b : List (String × JSValue)) (k : String) :
    lookupField (a ++ b) k = (lookupField a k).or (lookupField b k) := by
  unfold lookupField
  rw [List.find?_append]
  cases List.find? (fun p => p.1 == k) a <;> simp

theorem lookupField_eq_none_of_not_any (fs : List (String × JSValue)) (k : String)
    (h : ¬(fs.any fun p => p.1 == k) = true) : lookupField fs k = none := by
  unfold lookupField
  have hf : List.find? (fun p => p.1 == k) fs = none :=
    List.find?_eq_none.mpr (fun p hp hc => h (List.any_eq_true.mpr ⟨p, hp, hc⟩))
  rw [hf]
  rfl

theorem lookupField_map_overwrite (fs : List (String × JSValue)) (k k' : String)
    (v : JSValue) :
    lookupField (fs.map (fun p => if p.1 == k then (k, v) else p)) k'
      = if k' = k then (if fs.any (fun p => p.1 == k) then some v else none)
        else lookupField fs k' := by
  induction fs with
  | nil => simp [lookupField]
  | cons p t ih =>
    rw [List.map_cons, lookupField_cons, lookupField_cons, List.any_cons]
    by_cases hp : p.1 = k
    · have hfp : (if (p.1 == k) = true then ((k, v) : String × JSValue) else p) = (k, v) := by
        simp [hp]
      rw [hfp]
      by_cases hk : k' = k
      · simp [hk, hp]
      · rw [ih]
        simp [hk, Ne.symm hk, hp]
    · have hfp : (if (p.1 == k) = true then ((k, v) : String × JSValue) else p) = p := by
        simp [hp]
      rw [hfp]
      by_cases hk : k' = k
      · subst hk
        have hb : (p.1 == k') = false := by simp [hp]
        rw [ih, hb, Bool.false_or, if_neg hp]
        simp
      · by_cases hpk : p.1 = k'
        · simp [hpk, hk]
        · rw [ih]
          simp [hk, hpk]

theorem lookupField_setField (fs : List (String × JSValue)) (k k' : String) (v : JSValue) :
    lookupField (setField fs k v) k'
      = if k' = k then some v else lookupField fs k' := by
  unfold setField
  by_cases hmem : (fs.any fun p => p.1 == k) = true
  · rw [if_pos hmem, lookupField_map_overwrite, hmem]
    by_cases hk : k' = k <;> simp [hk]
  · rw [if_neg hmem, lookupField_append, lookupField_cons]
    by_cases hk : k' = k
    · rw [lookupField_eq_none_of_not_any fs k' (by rw [hk]; exact hmem)]
      simp [hk]
    · simp only [lookupField_nil, Ne.symm hk, if_neg, if_neg hk, not_false_iff]
      cases lookupField fs k' <;> simp

theorem lookupField_assignFields (src : List (String × JSValue))
    (base : List (String × JSValue)) (k : String)
    (hnd : (src.map Prod.fst).Nodup) :
    lookupField (assignFields base src) k
      = (lookupField src k).or (lookupField base k) := by
  induction src generalizing base with
  | nil => simp [assignFields, lookupField]
  | cons p t ih =>
    simp only [List.map_cons, List.nodup_cons] at hnd
    have step : assignFields base (p :: t) = assignFields (setField base p.1 p.2) t := rfl
    rw [step, ih _ hnd.2, lookupField_cons, lookupField_setField]
    by_cases hk : k = p.1
    · have hnone : lookupField t k = none := by
        apply lookupField_eq_none_of_not_any
        intro hc
        rcases List.any_eq_true.mp hc with ⟨q, hq, hqk⟩
        exact hnd.1 (List.mem_map.mpr ⟨q, hq, (beq_iff_eq.mp hqk).trans hk⟩)
      rw [hnone]
      simp [hk, Option.or]
    · simp [hk, Ne.symm hk]

/-- Looking a key up in a shallow-merged record: the candidate's binding if
it has one, else the previous state's. -/
theorem lookupField_merge (pf nf : List (String × JSValue)) (k : String)
    (hndp : (pf.map Prod.fst).Nodup) (hndn : (nf.map Prod.fst).Nodup) :
    lookupField (assignFields (assignFields [] pf) nf) k
      = (lookupField nf k).or (lookupField pf k) := by
  rw [lookupField_assignFields _ _ _ hndn, lookupField_assignFields _ _ _ hndp]
  cases lookupField nf k <;> cases lookupField pf k <;> simp [lookupField]

/-! ## The commit characterization of `setState` -/

theorem lt_length_of_lookup {α} (l : List α) (i : Nat) (a : α) (h : l[i]? = some a) :
    i < l.length :=
  (List.getElem?_eq_some.mp h).1

/-- A value that passes the `typeof v === "function"` test is a valid
reference to a function object on the heap. -/
theorem isFunction_ref (h : Heap) (v : JSValue) (hf : isFunction h v = true) :
    ∃ i, v = .ref i ∧ i < h.length := by
  cases v with
  | prim p => exact absurd hf (by simp [isFunction])
  | ref i =>
    refine ⟨i, rfl, ?_⟩
    simp only [isFunction] at hf
    cases hh : h[i]? with
    | none => rw [hh] at hf; simp at hf
    | some o => exact lt_length_of_lookup _ _ _ hh

/-- When neither identity guard of `setState` fires, the call commits:
either the merge branch (fresh `Object.assign({}, prev, next)` object) or
the wholesale branch, according to the plain-record test, and the full
listener set is notified. -/
theorem setState_commit (ft : FunTable) (h : Heap) (s : Store) (ns : JSValue)
    (replace : Bool)
    (hskip1 : objectIs s.nowState ns = false)
    (hskip2 : objectIs s.nowState (candidateOf ft h s ns).1 = false) :
    setState ft h s ns replace =
      if isPlainObject (candidateOf ft h s ns).2 s.nowState
          && isPlainObject (candidateOf ft h s ns).2 (candidateOf ft h s ns).1
          && !replace then
        ⟨(candidateOf ft h s ns).2
            ++ [.plain (assignFields
                  (assignFields [] (fieldsAt (candidateOf ft h s ns).2 s.nowState))
                  (fieldsAt (candidateOf ft h s ns).2 (candidateOf ft h s ns).1))],
         { s with nowState := .ref (candidateOf ft h s ns).2.length }, s.listeners⟩
      else
        ⟨(candidateOf ft h s ns).2, { s with nowState := (candidateOf ft h s ns).1 },
         s.listeners⟩ := by
  unfold setState
  simp only [hskip1, hskip2, Bool.false_eq_true, if_false, shallowMergeAlloc]

/-- Either `setState` is a no-op (store unchanged, nobody notified) or it
notified exactly the listener set it started with. -/
theorem setState_noop_or_notified (ft : FunTable) (h : Heap) (s : Store)
    (ns : JSValue) (replace : Bool) :
    ((setState ft h s ns replace).store = s ∧ (setState ft h s ns replace).notified = [])
    ∨ (setState ft h s ns replace).notified = s.listeners := by
  unfold setState
  by_cases h1 : objectIs s.nowState ns = true
  · simp [h1]
  · simp only [h1, if_false, Bool.not_eq_true] at *
    by_cases h2 : objectIs s.nowState (candidateOf ft h s ns).1 = true
    · simp [h1, h2]
    · simp only [Bool.not_eq_true] at h2
      by_cases h3 : (isPlainObject (candidateOf ft h s ns).2 s.nowState
          && isPlainObject (candidateOf ft h s ns).2 (candidateOf ft h s ns).1
          && !replace) = true
      · simp [h1, h2, h3]
      · simp [h1, h2, h3]

/-! ## C1: merge applies exactly when both sides are plain records and
`replace` is falsy -/

/-- C1: For every committing call `setState(candidate, replace)` (i.e. the
two identity no-op guards do not fire), shallow merge is applied — the
committed state is a freshly allocated record holding the previous state's
fields assigned over by the computed candidate's — exactly when both the
previous state and the candidate are plain records and `replace` is falsy;
in every other case (atomic candidate, atomic previous state, arrays,
callables, or `replace` truthy) the candidate itself becomes the new state
wholesale, with no merge allocation. -/
theorem setState_merge_policy (ft : FunTable) (h : Heap) (s : Store) (ns : JSValue)
    (replace : Bool)
    (hskip1 : objectIs s.nowState ns = false)
    (hskip2 : objectIs s.nowState (candidateOf ft h s ns).1 = false) :
    ((isPlainObject (candidateOf ft h s ns).2 s.nowState
        && isPlainObject (candidateOf ft h s ns).2 (candidateOf ft h s ns).1
        && !replace) = true →
      setState ft h s ns replace =
        ⟨(candidateOf ft h s ns).2
            ++ [.plain (assignFields
                  (assignFields [] (fieldsAt (candidateOf ft h s ns).2 s.nowState))
                  (fieldsAt (candidateOf ft h s ns).2 (candidateOf ft h s ns).1))],
         { s with nowState := .ref (candidateOf ft h s ns).2.length }, s.listeners⟩)
    ∧ ((isPlainObject (candidateOf ft h s ns).2 s.nowState
        && isPlainObject (candidateOf ft h s ns).2 (candidateOf ft h s ns).1
        && !replace) = false →
      setState ft h s ns replace =
        ⟨(candidateOf ft h s ns).2, { s with nowState := (candidateOf ft h s ns).1 },
         s.listeners⟩) := by
  constructor
  · intro hc
    rw [setState_commit ft h s ns replace hskip1 hskip2, if_pos hc]
  · intro hc
    rw [setState_commit ft h s ns replace hskip1 hskip2, if_neg (by simp [hc])]

/-- Witness for C1 at the spec's example: from state `{a:1}`,
`setState({b:2}, replace := true)` makes the state exactly the candidate
object `{b:2}` — no merge. -/
theorem setState_merge_policy_witness :
    setState ftConst heapReplace { nowState := .ref 0, listeners := [] } (.ref 1) true
        = ⟨heapReplace, { nowState := .ref 1, listeners := [] }, []⟩
    ∧ fieldsAt heapReplace (.ref 1) = [("b", .prim (.num 2))] := by
  constructor
  · exact (setState_merge_policy ftConst heapReplace
      { nowState := .ref 0, listeners := [] } (.ref 1) true (by decide) (by decide)).2
      (by decide)
  · decide

/-! ## C2: shallow merge builds a fresh object and mutates nothing -/

/-- C2: when the previous state and the computed candidate are both plain
records and `replace` is falsy, the committed state is a freshly allocated
object (a reference distinct from the previous state's), the previous
state's heap object is untouched, and every key of the merged record maps
to the candidate's binding when the candidate has the key and to the
previous state's binding otherwise. -/
theorem setState_shallow_merge (ft : FunTable) (h : Heap) (s : Store) (ns : JSValue)
    (i j : Nat) (pf nf : List (String × JSValue))
    (hskip1 : objectIs s.nowState ns = false)
    (hskip2 : objectIs s.nowState (candidateOf ft h s ns).1 = false)
    (hprev : s.nowState = .ref i)
    (hpf : (candidateOf ft h s ns).2[i]? = some (.plain pf))
    (hcand : (candidateOf ft h s ns).1 = .ref j)
    (hnf : (candidateOf ft h s ns).2[j]? = some (.plain nf))
    (hndp : (pf.map Prod.fst).Nodup) (hndn : (nf.map Prod.fst).Nodup) :
    (setState ft h s ns false).store.nowState = .ref (candidateOf ft h s ns).2.length
    ∧ i ≠ (candidateOf ft h s ns).2.length
    ∧ (setState ft h s ns false).heap[i]? = some (.plain pf)
    ∧ (setState ft h s ns false).heap[(candidateOf ft h s ns).2.length]?
        = some (.plain (assignFields (assignFields [] pf) nf))
    ∧ ∀ k, lookupField (assignFields (assignFields [] pf) nf) k
        = (lookupField nf k).or (lookupField pf k) := by
  have hplainp : isPlainObject (candidateOf ft h s ns).2 s.nowState = true := by
    rw [hprev]; simp only [isPlainObject, hpf]
  have hplainn : isPlainObject (candidateOf ft h s ns).2 (candidateOf ft h s ns).1 = true := by
    rw [hcand]; simp only [isPlainObject, hnf]
  have hfp : fieldsAt (candidateOf ft h s ns).2 s.nowState = pf := by
    rw [hprev]; simp only [fieldsAt, hpf]
  have hfn : fieldsAt (candidateOf ft h s ns).2 (candidateOf ft h s ns).1 = nf := by
    rw [hcand]; simp only [fieldsAt, hnf]
  have hlt : i < (candidateOf ft h s ns).2.length := lt_length_of_lookup _ i _ hpf
  have hres := (setState_merge_policy ft h s ns false hskip1 hskip2).1
    (by rw [hplainp, hplainn]; rfl)
  rw [hres, hfp, hfn]
  refine ⟨rfl, Nat.ne_of_lt hlt, ?_, ?_, fun k => lookupField_merge pf nf k hndp hndn⟩
  · exact (List.getElem?_append_left hlt).trans hpf
  · exact List.getElem?_concat_length _ _

/-- Witness for C2 at the spec's example: from state `{a:1,b:2}`,
`setState({b:3})` commits a fresh object `{a:1,b:3}` at index 2, leaves
object 0 (`{a:1,b:2}`) untouched, and the state reference moves. -/
theorem setState_shallow_merge_witness :
    (setState ftConst heapMerge { nowState := .ref 0, listeners := [] } (.ref 1)
        false).store.nowState = .ref 2
    ∧ (setState ftConst heapMerge { nowState := .ref 0, listeners := [] } (.ref 1)
        false).heap[0]?
        = some (.plain [("a", .prim (.num 1)), ("b", .prim (.num 2))])
    ∧ (setState ftConst heapMerge { nowState := .ref 0, listeners := [] } (.ref 1)
        false).heap[2]?
        = some (.plain [("a", .prim (.num 1)), ("b", .prim (.num 3))]) := by
  have hm := setState_shallow_merge ftConst heapMerge
    { nowState := .ref 0, listeners := [] } (.ref 1) 0 1
    [("a", .prim (.num 1)), ("b", .prim (.num 2))] [("b", .prim (.num 3))]
    (by decide) (by decide) rfl (by decide) (by decide) (by decide) (by decide) (by decide)
  refine ⟨hm.1, hm.2.2.1, ?_⟩
  have := hm.2.2.2.1
  exact this

/-! ## C3: identity-equal commits are no-ops -/

/-- C3: a `setState` call whose raw argument — or whose updater-computed
candidate — is `Object.is`-identical to the current state leaves the store
unchanged and notifies zero listeners. -/
theorem setState_identity_noop (ft : FunTable) (h : Heap) (s : Store) (ns : JSValue)
    (replace : Bool)
    (hid : objectIs s.nowState ns = true
      ∨ objectIs s.nowState (candidateOf ft h s ns).1 = true) :
    (setState ft h s ns replace).store = s
    ∧ (setState ft h s ns replace).notified = [] := by
  rcases hid with h1 | h2
  · unfold setState
    rw [if_pos h1]
    exact ⟨rfl, rfl⟩
  · unfold setState
    by_cases h1 : objectIs s.nowState ns = true
    · rw [if_pos h1]
      exact ⟨rfl, rfl⟩
    · rw [if_neg h1, if_pos h2]
      exact ⟨rfl, rfl⟩

/-- Witness for C3: with current state the object `{a:1}` (reference 0),
`setState(ref 0)` keeps the store untouched and fires no listener, even
with listeners registered. -/
theorem setState_identity_noop_witness :
    (setState ftConst heapReplace { nowState := .ref 0, listeners := [.user 1, .user 2] }
        (.ref 0) false).store
      = { nowState := .ref 0, listeners := [.user 1, .user 2] }
    ∧ (setState ftConst heapReplace { nowState := .ref 0, listeners := [.user 1, .user 2] }
        (.ref 0) false).notified = [] :=
  setState_identity_noop ftConst heapReplace
    { nowState := .ref 0, listeners := [.user 1, .user 2] } (.ref 0) false
    (Or.inl (by decide))

/-! ## C9: non-plain-prototype objects are atomic and always replaced
wholesale -/

/-- C9: a heap object that is not a plain record (an array, a function, or
an exotic object — class instance or `Object.create(null)` result, whose
prototype is not exactly `Object.prototype`) is classified as atomic by
`isPlainObject`; consequently a committing `setState` call with such a
value on either side (as previous state or as computed candidate) installs
the candidate wholesale and never shallow-merges. -/
theorem atomic_value_replaces (ft : FunTable) (h : Heap) (s : Store) (ns : JSValue)
    (replace : Bool) (i : Nat) (o : HeapObj)
    (hskip1 : objectIs s.nowState ns = false)
    (hskip2 : objectIs s.nowState (candidateOf ft h s ns).1 = false)
    (ho : (candidateOf ft h s ns).2[i]? = some o)
    (hnp : o.isPlainRec = false)
    (hside : s.nowState = .ref i ∨ (candidateOf ft h s ns).1 = .ref i) :
    isPlainObject (candidateOf ft h s ns).2 (.ref i) = false
    ∧ setState ft h s ns replace
        = ⟨(candidateOf ft h s ns).2, { s with nowState := (candidateOf ft h s ns).1 },
           s.listeners⟩ := by
  have hplain : isPlainObject (candidateOf ft h s ns).2 (.ref i) = false := by
    simp only [isPlainObject, ho]
    cases o with
    | plain fs => exact absurd hnp (by simp [HeapObj.isPlainRec])
    | array es => rfl
    | func fid => rfl
    | exotic t => rfl
  refine ⟨hplain, (setState_merge_policy ft h s ns replace hskip1 hskip2).2 ?_⟩
  rcases hside with hs1 | hs2
  · rw [hs1, hplain, Bool.false_and, Bool.false_and]
  · rw [hs2, hplain, Bool.and_false, Bool.false_and]

/-- Witness for C9: with previous state the plain object `{x:1}` and the
candidate an array (reference 1), `isPlainObject` classifies the array as
atomic and `setState` installs the array reference wholesale — no merge. -/
theorem atomic_value_replaces_witness :
    isPlainObject heapArr (.ref 1) = false
    ∧ setState ftConst heapArr { nowState := .ref 0, listeners := [] } (.ref 1) false
        = ⟨heapArr, { nowState := .ref 1, listeners := [] }, []⟩ :=
  atomic_value_replaces ftConst heapArr { nowState := .ref 0, listeners := [] }
    (.ref 1) false 1 (.array []) (by decide) (by decide) (by decide) (by decide)
    (Or.inr (by decide))

/-! ## C10: a function argument is an updater -/

/-- C10 counterexample: the claim says `setState` "can never install a
directly-passed function value itself as the store's state".  Take the
function object at reference 0 whose behaviour (as an updater) is to return
reference 0 — i.e. itself.  Calling `setState(ref 0)` with previous state
`5` invokes the updater, gets back the very function that was passed, and
installs it: the store's state afterwards *is* the directly-passed
function value. -/
theorem setState_function_arg_counterexample :
    isFunction heapFun (.ref 0) = true
    ∧ (setState ftSelfReturn heapFun { nowState := .prim (.num 5), listeners := [] }
        (.ref 0) false).store.nowState = .ref 0 := by decide

/-- C10 amended: a function value passed as the `newState` argument is
always interpreted as an updater — the candidate is the result of calling
it with the previous state — so the function value itself is installed as
the state only when the updater's own return value is that function; when
the updater returns anything else, the committed state is never the
directly-passed function. -/
theorem setState_function_arg_updater (ft : FunTable) (h : Heap) (s : Store)
    (ns : JSValue) (replace : Bool)
    (hfn : isFunction h ns = true)
    (hskip1 : objectIs s.nowState ns = false)
    (hskip2 : objectIs s.nowState (candidateOf ft h s ns).1 = false)
    (hstill : isFunction (candidateOf ft h s ns).2 ns = true)
    (hret : (candidateOf ft h s ns).1 ≠ ns) :
    candidateOf ft h s ns = callFun ft h ns s.nowState
    ∧ (setState ft h s ns replace).store.nowState ≠ ns := by
  constructor
  · unfold candidateOf
    rw [if_pos hfn]
  · rw [setState_commit ft h s ns replace hskip1 hskip2]
    by_cases hc : (isPlainObject (candidateOf ft h s ns).2 s.nowState
        && isPlainObject (candidateOf ft h s ns).2 (candidateOf ft h s ns).1
        && !replace) = true
    · rw [if_pos hc]
      obtain ⟨i, hns, hi⟩ := isFunction_ref _ ns hstill
      subst hns
      intro hcontra
      have := JSValue.ref.inj hcontra
      omega
    · rw [if_neg (by simp [hc])]
      exact hret

/-- Witness for C10 (amended): with previous state `5` and a function
argument whose updater behaviour returns `undefined`, the candidate is the
call's result and the committed state is not the passed function. -/
theorem setState_function_arg_updater_witness :
    candidateOf ftConst heapFun { nowState := .prim (.num 5), listeners := [] } (.ref 0)
      = callFun ftConst heapFun (.ref 0) (.prim (.num 5))
    ∧ (setState ftConst heapFun { nowState := .prim (.num 5), listeners := [] }
        (.ref 0) false).store.nowState ≠ .ref 0 :=
  setState_function_arg_updater ftConst heapFun
    { nowState := .prim (.num 5), listeners := [] } (.ref 0) false
    (by decide) (by decide) (by decide) (by decide) (by decide)

/-! ## Lemmas on the persistent store's listener effects -/

/-- Listener effects never touch the committed state or the heap. -/
theorem runListeners_nowState (cfg : PCfg) (pending : List ListenerKind) (ps : PState)
    (st prev : JSValue) :
    (runListeners cfg ps pending st prev).1.nowState = ps.nowState
    ∧ (runListeners cfg ps pending st prev).1.heap = ps.heap := by
  induction pending generalizing ps with
  | nil => exact ⟨rfl, rfl⟩
  | cons l rest ih =>
    cases l with
    | user uid => exact ih _
    | changedFlag => exact ih _
    | writeThrough =>
      simp only [runListeners]
      by_cases hthrow : cfg.setItemThrows (storageKeyOf cfg) (cfg.stringify ps.heap st) = true
      · rw [if_pos hthrow]
        exact ⟨rfl, rfl⟩
      · rw [if_neg hthrow]
        exact ih _

/-- Listener effects never reset the one-shot changed flag. -/
theorem runListeners_changed_mono (cfg : PCfg) (pending : List ListenerKind) (ps : PState)
    (st prev : JSValue) (hch : ps.changed = true) :
    (runListeners cfg ps pending st prev).1.changed = true := by
  induction pending generalizing ps with
  | nil => exact hch
  | cons l rest ih =>
    cases l with
    | user uid => exact ih _ hch
    | changedFlag => exact ih _ rfl
    | writeThrough =>
      simp only [runListeners]
      by_cases hthrow : cfg.setItemThrows (storageKeyOf cfg) (cfg.stringify ps.heap st) = true
      · rw [if_pos hthrow]
        exact hch
      · rw [if_neg hthrow]
        exact ih _ hch

/-- A notification whose listener list starts with the one-shot
changed-flag listener arms the flag, whatever happens afterwards. -/
theorem runListeners_changedFlag_sets (cfg : PCfg) (rest : List ListenerKind)
    (ps : PState) (st prev : JSValue) :
    (runListeners cfg ps (.changedFlag :: rest) st prev).1.changed = true := by
  simp only [runListeners]
  exact runListeners_changed_mono cfg rest _ st prev rfl

/-- Once the changed flag is armed, a later promise resolution is ignored
entirely. -/
theorem resolveLoad_changed (cfg : PCfg) (ps : PState) (v : Option String)
    (hch : ps.changed = true) :
    resolveLoad cfg ps (.resolved v) = ps := by
  simp only [resolveLoad]
  rw [if_pos hch]

/-- Shape of a store returned by `createPersistentStore` over an
asynchronous backend: seeded with the initial state, the changed flag
disarmed, and the changed-flag listener subscribed before the
write-through listener. -/
theorem psCreate_async_shape (cfg : PCfg) (b0 : List (String × String)) (h : Heap)
    (init : JSValue) (ps : PState)
    (hc : psCreate cfg .async b0 h init = some ps) :
    ps.listeners = [.changedFlag, .writeThrough]
    ∧ ps.nowState = (resolveInit cfg.ft h init).1
    ∧ ps.changed = false := by
  unfold psCreate buildFromInit createStore at hc
  by_cases hthrow : cfg.setItemThrows (storageKeyOf cfg)
      (cfg.stringify (resolveInit cfg.ft h init).2 (resolveInit cfg.ft h init).1) = true
  · rw [if_pos hthrow] at hc
    cases hc
  · rw [if_neg hthrow] at hc
    injection hc with hrec
    subst hrec
    exact ⟨rfl, rfl, rfl⟩

/-! ## C4: a local commit before the asynchronous load resolves wins -/

/-- C4: for a persistent store built over an asynchronous backend, if a
local `setState` commit happens (the state actually changes) before the
pending `getItem` promise resolves, then the one-shot changed flag is
armed, and when the promise later resolves — to any snapshot — the
resolution is discarded entirely: the store keeps the locally-set state. -/
theorem psLoad_first_mutation_wins (cfg : PCfg) (b0 : List (String × String))
    (h : Heap) (init ns : JSValue) (replace : Bool) (ps0 : PState) (v : Option String)
    (hc : psCreate cfg .async b0 h init = some ps0)
    (hchange : (psSetState cfg ps0 ns replace).1.nowState ≠ ps0.nowState) :
    (psSetState cfg ps0 ns replace).1.changed = true
    ∧ resolveLoad cfg (psSetState cfg ps0 ns replace).1 (.resolved v)
        = (psSetState cfg ps0 ns replace).1 := by
  have hshape := psCreate_async_shape cfg b0 h init ps0 hc
  rcases setState_noop_or_notified cfg.ft ps0.heap
      { nowState := ps0.nowState, listeners := ps0.listeners } ns replace with
    ⟨hstore, hnot⟩ | hnot
  · exfalso
    apply hchange
    simp only [psSetState]
    rw [hnot]
    have h1 := (runListeners_nowState cfg []
      { ps0 with
          heap := (setState cfg.ft ps0.heap
            { nowState := ps0.nowState, listeners := ps0.listeners } ns replace).heap
          nowState := (setState cfg.ft ps0.heap
            { nowState := ps0.nowState, listeners := ps0.listeners } ns replace).store.nowState }
      (setState cfg.ft ps0.heap
        { nowState := ps0.nowState, listeners := ps0.listeners } ns replace).store.nowState
      ps0.nowState).1
    rw [h1, hstore]
  · have hch : (psSetState cfg ps0 ns replace).1.changed = true := by
      simp only [psSetState]
      rw [hnot]
      have hl : ({ nowState := ps0.nowState, listeners := ps0.listeners } : Store).listeners
          = [.changedFlag, .writeThrough] := hshape.1
      rw [hl]
      exact runListeners_changedFlag_sets cfg [.writeThrough] _ _ _
    exact ⟨hch, resolveLoad_changed cfg _ v hch⟩

/-- Witness for C4: an asynchronous backend, a local `setState(9)` before
resolution, then resolution to the snapshot `"snap"`: the flag is armed,
the snapshot is discarded and the state stays `9`. -/
theorem psLoad_first_mutation_wins_witness :
    (psSetState cfgSnap psAsync0 (.prim (.num 9)) false).1.changed = true
    ∧ resolveLoad cfgSnap (psSetState cfgSnap psAsync0 (.prim (.num 9)) false).1
        (.resolved (some "snap"))
        = (psSetState cfgSnap psAsync0 (.prim (.num 9)) false).1 :=
  psLoad_first_mutation_wins cfgSnap [] [.plain [("b", .prim (.num 2))]]
    (.ref 0) (.prim (.num 9)) false psAsync0 (some "snap") (by decide) (by decide)

/-! ## C5: a corrupt synchronous snapshot falls back to the initial state -/

/-- C5: when a synchronous backend returns a string for the store's key that
the deserializer fails to parse (and the backend's writes do not throw),
`createPersistentStore` returns normally: the store is seeded with the
caller-supplied initial state, the corrupt entry is removed from the
backend (`removeItem` is issued, and the key afterwards holds the
serialized initial state written by the construction write-through), and
the failure is logged once. -/
theorem psCreate_corrupt_fallback (cfg : PCfg) (b0 : List (String × String))
    (h : Heap) (init : JSValue) (corrupt : String)
    (hparse : cfg.parse corrupt h = none)
    (hnothrow : ∀ v, cfg.setItemThrows (storageKeyOf cfg) v = false) :
    ∃ ps, psCreate cfg (.sync (some corrupt)) b0 h init = some ps
      ∧ ps.nowState = (resolveInit cfg.ft h init).1
      ∧ StorageOp.remove (storageKeyOf cfg) ∈ ps.ops
      ∧ ps.backend = setKV (removeKV b0 (storageKeyOf cfg)) (storageKeyOf cfg)
          (cfg.stringify (resolveInit cfg.ft h init).2 (resolveInit cfg.ft h init).1)
      ∧ ps.errors = 1 := by
  simp only [psCreate]
  rw [hparse]
  unfold buildFromInit createStore
  rw [if_neg (by rw [hnothrow]; exact Bool.false_ne_true)]
  exact ⟨_, rfl, rfl, by simp, rfl, rfl⟩

/-- Witness for C5: a backend holding the unparsable string `"???"` under
the store's key; construction succeeds, state is the initial `7`, and the
corrupt entry is removed. -/
theorem psCreate_corrupt_fallback_witness :
    ∃ ps, psCreate cfgCorrupt (.sync (some "???")) [("react-soda-n", "???")] []
        (.prim (.num 7)) = some ps
      ∧ ps.nowState = (resolveInit cfgCorrupt.ft [] (.prim (.num 7))).1
      ∧ StorageOp.remove (storageKeyOf cfgCorrupt) ∈ ps.ops
      ∧ ps.backend = setKV (removeKV [("react-soda-n", "???")] (storageKeyOf cfgCorrupt))
          (storageKeyOf cfgCorrupt)
          (cfgCorrupt.stringify (resolveInit cfgCorrupt.ft [] (.prim (.num 7))).2
            (resolveInit cfgCorrupt.ft [] (.prim (.num 7))).1)
      ∧ ps.errors = 1 :=
  psCreate_corrupt_fallback cfgCorrupt [("react-soda-n", "???")] [] (.prim (.num 7))
    "???" (by decide) (fun _ => rfl)

/-! ## C6: how a successfully resolved asynchronous snapshot is applied -/

/-- C6 counterexample: the claim says the store's state afterwards equals
the persisted snapshot.  With initial state `{b:2}` and a snapshot parsing
to the record `{a:1}` (freshly allocated at reference 1), the resolution
goes through `setState`, which *shallow-merges*: the final state is the
fresh object at reference 2 with fields `{b:2, a:1}` — not the snapshot
object, and not field-equal to the snapshot `{a:1}`. -/
theorem psLoad_catchup_counterexample :
    ((psCreate cfgSnap .async [] [.plain [("b", .prim (.num 2))]] (.ref 0)).map
        (fun ps => resolveLoad cfgSnap ps (.resolved (some "snap")))).map
      (fun ps => (ps.nowState, fieldsAt ps.heap ps.nowState))
      = some (.ref 2, [("b", .prim (.num 2)), ("a", .prim (.num 1))])
    ∧ cfgSnap.parse "snap" [.plain [("b", .prim (.num 2))]]
        = some (.ref 1, [.plain [("b", .prim (.num 2))], .plain [("a", .prim (.num 1))]])
    ∧ fieldsAt [.plain [("b", .prim (.num 2))], .plain [("a", .prim (.num 1))]] (.ref 1)
        = [("a", .prim (.num 1))]
    ∧ ([("b", .prim (.num 2)), ("a", .prim (.num 1))] : List (String × JSValue))
        ≠ [("a", .prim (.num 1))] := by decide

/-- C6 amended: when the pending `getItem` resolves to a non-null string,
no commit has happened since construction, and deserialization succeeds,
the snapshot is committed through the store's ordinary `setState` path; in
particular, when the snapshot is applied wholesale (it differs from the
current state, is not itself a function, and it or the current state is not
a plain record) the store's state afterwards equals the persisted
snapshot, while two plain records are shallow-merged. -/
theorem psLoad_applies_snapshot (cfg : PCfg) (ps : PState) (str : String)
    (data : JSValue) (h1 : Heap)
    (hch : ps.changed = false)
    (hparse : cfg.parse str ps.heap = some (data, h1)) :
    resolveLoad cfg ps (.resolved (some str))
      = (psSetState cfg { ps with heap := h1 } data false).1
    ∧ (isFunction h1 data = false →
       objectIs ps.nowState data = false →
       (isPlainObject h1 ps.nowState && isPlainObject h1 data) = false →
       (resolveLoad cfg ps (.resolved (some str))).nowState = data) := by
  have happly : resolveLoad cfg ps (.resolved (some str))
      = (psSetState cfg { ps with heap := h1 } data false).1 := by
    simp only [resolveLoad]
    rw [if_neg (by rw [hch]; exact Bool.false_ne_true), hparse]
  refine ⟨happly, fun hfn hne hatomic => ?_⟩
  rw [happly]
  simp only [psSetState]
  rw [(runListeners_nowState cfg _ _ _ _).1]
  have hcand : candidateOf cfg.ft h1 { nowState := ps.nowState, listeners := ps.listeners } data
      = (data, h1) := by
    unfold candidateOf
    rw [if_neg (by rw [hfn]; exact Bool.false_ne_true)]
  have := (setState_merge_policy cfg.ft h1
      { nowState := ps.nowState, listeners := ps.listeners } data false hne
      (by rw [hcand]; exact hne)).2 (by rw [hcand]; simpa using hatomic)
  rw [this]
  simp [hcand]

/-- Witness for C6 (amended): an atomic snapshot `42` over the atomic
initial state `0` with the flag disarmed: the resolution applies the
snapshot through `setState` and the state afterwards is exactly `42`. -/
theorem psLoad_applies_snapshot_witness :
    resolveLoad cfgAtomicSnap
        { heap := [], nowState := .prim (.num 0),
          listeners := [.changedFlag, .writeThrough], changed := false,
          backend := [("react-soda-n", "0")],
          ops := [.get "react-soda-n", .set "react-soda-n" "0"],
          errors := 0, notifs := [] } (.resolved (some "42"))
      = (psSetState cfgAtomicSnap
          { heap := [], nowState := .prim (.num 0),
            listeners := [.changedFlag, .writeThrough], changed := false,
            backend := [("react-soda-n", "0")],
            ops := [.get "react-soda-n", .set "react-soda-n" "0"],
            errors := 0, notifs := [] } (.prim (.num 42)) false).1
    ∧ (resolveLoad cfgAtomicSnap
        { heap := [], nowState := .prim (.num 0),
          listeners := [.changedFlag, .writeThrough], changed := false,
          backend := [("react-soda-n", "0")],
          ops := [.get "react-soda-n", .set "react-soda-n" "0"],
          errors := 0, notifs := [] } (.resolved (some "42"))).nowState
      = .prim (.num 42) := by
  have hm := psLoad_applies_snapshot cfgAtomicSnap
    { heap := [], nowState := .prim (.num 0),
      listeners := [.changedFlag, .writeThrough], changed := false,
      backend := [("react-soda-n", "0")],
      ops := [.get "react-soda-n", .set "react-soda-n" "0"],
      errors := 0, notifs := [] } "42" (.prim (.num 42)) []
    rfl (by decide)
  exact ⟨hm.1, hm.2 (by decide) (by decide) (by decide)⟩

/-! ## C7: a throwing write-through does surface from `setState` -/

/-- C7 counterexample: the claim says no error is ever surfaced as a thrown
exception from `setState` of a persistent store.  Take a backend whose
`setItem` throws when asked to write `"1"`: construction (which writes
`"0"`) succeeds, but the `setState(1)` call's write-through listener throws
and the exception propagates out of `setState` (second component `true`) —
while the in-memory commit to `1` is retained. -/
theorem psSetState_throw_counterexample :
    ((psCreate cfgThrowOnOne (.sync none) [] [] (.prim (.num 0))).map
        (fun ps => psSetState cfgThrowOnOne ps (.prim (.num 1)) false)).map
      (fun r => (r.2, r.1.nowState))
      = some (true, .prim (.num 1)) := by decide

/-- C7 amended: a synchronously throwing `setItem` in the per-commit
write-through propagates out of `setState` (it is not caught or logged by
the store), but the in-memory commit is never rolled back: after any
`setState` call on a persistent store — throwing or not — the store's
state is exactly the state committed by the core `setState`, unaffected by
the listener effects. -/
theorem psSetState_commit_not_rolled_back (cfg : PCfg) (ps : PState) (ns : JSValue)
    (replace : Bool) :
    (psSetState cfg ps ns replace).1.nowState
      = (setState cfg.ft ps.heap { nowState := ps.nowState, listeners := ps.listeners }
          ns replace).store.nowState := by
  simp only [psSetState]
  exact (runListeners_nowState cfg _ _ _ _).1

/-! ## C8: read failures at construction -/

/-- C8 counterexample: the claim says a synchronously throwing `getItem` on
the initial read is recovered and construction does not crash.  But the
`storage.getItem(storageKey)` call at line 261 runs outside any try/catch,
so the exception propagates out of `createPersistentStore`: construction
crashes (modelled by `none`). -/
theorem psCreate_syncThrow_counterexample :
    psCreate cfgCorrupt .syncThrow [] [] (.prim (.num 0)) = none := rfl

/-- C8 amended: a *rejected future* from an asynchronous backend's `getItem`
is recovered — the store was already returned seeded with the
caller-supplied initial state, and the rejection is only logged
(`console.error`), leaving the store untouched; a synchronously throwing
`getItem`, by contrast, propagates out of `createPersistentStore`. -/
theorem psCreate_rejected_future_recovered (cfg : PCfg) (b0 : List (String × String))
    (h : Heap) (init : JSValue)
    (hnothrow : ∀ v, cfg.setItemThrows (storageKeyOf cfg) v = false) :
    ∃ ps, psCreate cfg .async b0 h init = some ps
      ∧ ps.nowState = (resolveInit cfg.ft h init).1
      ∧ resolveLoad cfg ps .rejected = { ps with errors := ps.errors + 1 }
      ∧ (resolveLoad cfg ps .rejected).nowState = ps.nowState := by
  unfold psCreate buildFromInit createStore
  rw [if_neg (by rw [hnothrow]; exact Bool.false_ne_true)]
  exact ⟨_, rfl, rfl, rfl, rfl⟩

/-- Witness for C8 (amended): an asynchronous backend whose promise later
rejects; construction succeeds with the initial state `7` and the
rejection only bumps the error log. -/
theorem psCreate_rejected_future_recovered_witness :
    ∃ ps, psCreate cfgCorrupt .async [] [] (.prim (.num 7)) = some ps
      ∧ ps.nowState = (resolveInit cfgCorrupt.ft [] (.prim (.num 7))).1
      ∧ resolveLoad cfgCorrupt ps .rejected = { ps with errors := ps.errors + 1 }
      ∧ (resolveLoad cfgCorrupt ps .rejected).nowState = ps.nowState :=
  psCreate_rejected_future_recovered cfgCorrupt [] [] (.prim (.num 7)) (fun _ => rfl)

end ReactSoda
